import Mathlib

/-!
Verification of the real-time room presence and broadcast engine
(backend/index.js of the loopp backend).

The engine is embedded shallowly: the mutable process state (presence
refcounts, announcement guard sets, socket subscriptions) together with
the external stores it mutates (user records, chat rooms, the message
log, project requests) are gathered into one `ServerState`; every
socket-event handler of the source becomes a pure state transformer.
Emitted socket events are recorded in an `emitted` log, and every
invocation of `ensureSystemInline` is additionally recorded in an
`ensureCalls` log so that re-announcement behaviour is observable.
-/

namespace Loopp

/-- senderType of a stored message: "User" or "System". -/
inductive SenderType where
  | User : SenderType
  | System : SenderType
deriving DecidableEq, Repr

/-- A stored chat message (the Message model). `createdAt` is the clock
value at creation time; `sender` is `none` for System messages. -/
structure Msg where
  id : Nat
  room : String
  senderType : SenderType
  sender : Option String
  text : String
  attachments : List String
  createdAt : Nat
deriving DecidableEq, Repr

/-- A user record of the identity store (the User model), restricted to
the fields the engine reads or writes, plus `tokenVersion` which the
engine must never touch. -/
structure UserRec where
  uid : String
  firstName : Option String
  lastName : Option String
  email : Option String
  role : String
  online : Bool
  lastActive : Nat
  tokenVersion : Nat
deriving DecidableEq, Repr

/-- A loosely-typed user document as handled by the join/greeting code
(it may be a real record or the literal fallback object). -/
structure UserDoc where
  _id : Option String
  firstName : Option String
  lastName : Option String
  email : Option String
  role : Option String
deriving DecidableEq, Repr

/-- A chat room (the ChatRoom model): its id and the transient typing
map userId -> role string. -/
structure Room where
  rid : String
  typing : List (String × String)
deriving DecidableEq, Repr

/-- A project request, restricted to the association used by the join
handler: its chat room and whether a PM is assigned (truthiness of the
pmAssigned field). -/
structure ProjectRequest where
  chatRoom : String
  pmAssigned : Bool
deriving DecidableEq, Repr

/-- Target of a socket emission: io.to(channel), socket.to(channel)
(everyone in the channel except the sender), or socket.emit (the one
socket). -/
inductive EmitTarget where
  | toChannel : String → EmitTarget
  | toChannelExcept : String → String → EmitTarget
  | toSocket : String → EmitTarget
deriving DecidableEq, Repr

/-- Payloads of the outbound events the engine emits. -/
inductive Payload where
  | message : Nat → String → Option String → SenderType → String → String →
      String → List String → Nat → Payload
  | systemInline : String → String → Nat → Payload
  | systemJoin : String → Option String → String → String → Nat → Payload
  | systemLeave : String → Option String → String → String → Nat → Payload
  | joined : String → Payload
  | typing : String → Option String → Option String → Bool → Payload
  | error : String → Payload
deriving DecidableEq, Repr

/-- One emitted socket event. -/
structure Emit where
  target : EmitTarget
  event : String
  payload : Payload
deriving DecidableEq, Repr

/-- The whole observable state: external stores, in-memory process
state, and the observation logs. `now` is the current clock reading
used for timestamps. -/
structure ServerState where
  messages : List Msg
  nextMsgId : Nat
  users : List UserRec
  rooms : List Room
  projectRequests : List ProjectRequest
  presence : List (String × Nat)
  pmAnnounced : List String
  engineerFirstJoin : List String
  subs : List (String × String)
  emitted : List Emit
  ensureCalls : List (String × String)
  now : Nat
deriving DecidableEq, Repr

/-! ### JavaScript-flavoured string helpers -/

/-- JS `a || b` on strings: the empty string is falsy. -/
def jsOr (a b : String) : String := if a == "" then b else a

/-- JS `a || b` where `a` may be undefined. -/
def jsOrOpt (a : Option String) (b : String) : String :=
  match a with
  | some s => jsOr s b
  | none => b

/-- JS `String(x)` on a possibly-undefined string. -/
def jsString (a : Option String) : String :=
  match a with
  | some s => s
  | none => "undefined"

/-- Join a list of strings with single spaces (Array.prototype.join " "). -/
def joinSpace : List String → String
  | [] => ""
  | [s] => s
  | s :: rest => s ++ " " ++ joinSpace rest

/-- JS `[a, b].filter(Boolean).join(" ")`: drop undefined and empty
parts, join the rest with spaces. -/
def filtJoin (parts : List (Option String)) : String :=
  joinSpace ((parts.filterMap id).filter (fun s => !(s == "")))

/-- JS `email.split("@")[0]`: the part of the string before the first
`@`, or the empty string when the value is undefined. -/
def takeUntilAt : List Char → List Char
  | [] => []
  | c :: rest => if c == '@' then [] else c :: takeUntilAt rest

/-- Local part of an optional email address. -/
def emailLocalPart (e : Option String) : String :=
  match e with
  | some s => String.mk (takeUntilAt s.toList)
  | none => ""

/-! ### Case-insensitive role matching (the /client/i, /engineer/i and
/pm|project\s*manager/i tests of the join handler) -/

/-- Lower-case a character list. -/
def lcList (cs : List Char) : List Char := cs.map Char.toLower

/-- Does the first list occur as a leading segment of the second? -/
def leadsWith : List Char → List Char → Bool
  | [], _ => true
  | _ :: _, [] => false
  | a :: as, b :: bs => a == b && leadsWith as bs

/-- Does the first list occur as a contiguous segment of the second? -/
def containsSeg (pat : List Char) : List Char → Bool
  | [] => leadsWith pat []
  | c :: rest => leadsWith pat (c :: rest) || containsSeg pat rest

/-- Case-insensitive substring test: JS `/pat/i.test(s)` for a literal
pattern. -/
def containsCI (s pat : String) : Bool :=
  containsSeg (lcList pat.toList) (lcList s.toList)

/-- Strip a literal leading segment, or fail. -/
def stripLead : List Char → List Char → Option (List Char)
  | [], s => some s
  | _ :: _, [] => none
  | a :: as, b :: bs => if a == b then stripLead as bs else none

/-- The whitespace class of the regex escape in /project\s*manager/. -/
def isWsChar (c : Char) : Bool :=
  c == ' ' || c == '\t' || c == '\n' || c == '\r' || c == '\x0b' || c == '\x0c'

/-- Drop leading whitespace. -/
def dropWs : List Char → List Char
  | [] => []
  | c :: rest => if isWsChar c then dropWs rest else c :: rest

/-- Does `project`, then any whitespace, then `manager` start here? -/
def projMgrAt (cs : List Char) : Bool :=
  match stripLead ("project".toList) cs with
  | none => false
  | some rest => leadsWith ("manager".toList) (dropWs rest)

/-- Does the predicate hold at some suffix of the list? -/
def anySuffix (p : List Char → Bool) : List Char → Bool
  | [] => p []
  | c :: rest => p (c :: rest) || anySuffix p rest

/-- JS `/pm|project\s*manager/i.test(role)`. -/
def testPMRole (role : String) : Bool :=
  containsSeg (lcList "pm".toList) (lcList role.toList) ||
    anySuffix projMgrAt (lcList role.toList)

/-! ### Association-list maps (JS Map with string keys) -/

/-- Lookup in an association list (Map.prototype.get). -/
def assocGet {α : Type} : List (String × α) → String → Option α
  | [], _ => none
  | p :: rest, k => if p.1 == k then some p.2 else assocGet rest k

/-- Insert or replace in an association list (Map.prototype.set). -/
def assocSet {α : Type} : List (String × α) → String → α → List (String × α)
  | [], k, v => [(k, v)]
  | p :: rest, k, v => if p.1 == k then (k, v) :: rest else p :: assocSet rest k v

/-- Remove a key from an association list (Map.prototype.delete). -/
def assocDelete {α : Type} (l : List (String × α)) (k : String) : List (String × α) :=
  l.filter (fun p => !(p.1 == k))

/-! ### Store lookups and primitive state transformers -/

/-- First user record with the given id (User.findById). -/
def findUserL : List UserRec → String → Option UserRec
  | [], _ => none
  | u :: rest, uid => if u.uid == uid then some u else findUserL rest uid

/-- First room with the given id (ChatRoom.findById). -/
def findRoomL : List Room → String → Option Room
  | [], _ => none
  | r :: rest, rid => if r.rid == rid then some r else findRoomL rest rid

/-- Room lookup on the state. -/
def findRoom (st : ServerState) (roomId : String) : Option Room :=
  findRoomL st.rooms roomId

/-- First project request whose chatRoom matches (ProjectRequest.findOne). -/
def findPRL : List ProjectRequest → String → Option ProjectRequest
  | [], _ => none
  | p :: rest, rid => if p.chatRoom == rid then some p else findPRL rest rid

/-- Project request lookup on the state. -/
def findPR (st : ServerState) (roomId : String) : Option ProjectRequest :=
  findPRL st.projectRequests roomId

/-- The cached user document, or a fresh identity-store lookup
(myUserDoc or User.findById uid). -/
def resolveU (users : List UserRec) (doc : Option UserRec) (uid : Option String) :
    Option UserRec :=
  match doc with
  | some d => some d
  | none =>
    match uid with
    | some i => findUserL users i
    | none => none

/-- Message.exists with a room, senderType and exact-text filter. -/
def msgExists (st : ServerState) (roomId : String) (sty : SenderType) (text : String) : Bool :=
  st.messages.any (fun m => m.room == roomId && m.senderType == sty && m.text == text)

/-- Message.exists with only a room and senderType filter. -/
def msgExistsType (st : ServerState) (roomId : String) (sty : SenderType) : Bool :=
  st.messages.any (fun m => m.room == roomId && m.senderType == sty)

/-- Number of stored messages satisfying a predicate. -/
def countMsgs (st : ServerState) (p : Msg → Bool) : Nat :=
  (st.messages.filter p).length

/-- In-memory presence refcount of a user (absent key reads as 0). -/
def refcountL (l : List (String × Nat)) (uid : String) : Nat :=
  (assocGet l uid).getD 0

/-- Presence refcount on the state. -/
def refcount (st : ServerState) (uid : String) : Nat :=
  refcountL st.presence uid

/-- The durable online flag of a user, false when no record exists. -/
def onlineOf (st : ServerState) (uid : String) : Bool :=
  match findUserL st.users uid with
  | some u => u.online
  | none => false

/-- The durable lastActive of a user, 0 when no record exists. -/
def lastActiveOf (st : ServerState) (uid : String) : Nat :=
  match findUserL st.users uid with
  | some u => u.lastActive
  | none => 0

/-- User.updateOne with a $set of exactly online and lastActive: updates
the first record matching the id and nothing else. -/
def setOnlineFirst : List UserRec → String → Bool → Nat → List UserRec
  | [], _, _, _ => []
  | u :: rest, uid, b, t =>
    if u.uid == uid then { u with online := b, lastActive := t } :: rest
    else u :: setOnlineFirst rest uid b t

/-- The durable presence write lifted to the state. -/
def userSetOnline (st : ServerState) (uid : String) (b : Bool) (t : Nat) : ServerState :=
  { st with users := setOnlineFirst st.users uid b t }

/-- Room.save after mutating the typing map: replace the typing map of
the first room matching the id. -/
def setRoomTypingFirst : List Room → String → List (String × String) → List Room
  | [], _, _ => []
  | r :: rest, rid, ty =>
    if r.rid == rid then { r with typing := ty } :: rest
    else r :: setRoomTypingFirst rest rid ty

/-- Record an emission. -/
def emit (st : ServerState) (e : Emit) : ServerState :=
  { st with emitted := st.emitted ++ [e] }

/-- socket.join: subscribe a socket to a channel (idempotent). -/
def subJoin (st : ServerState) (sid ch : String) : ServerState :=
  if st.subs.contains (sid, ch) then st
  else { st with subs := st.subs ++ [(sid, ch)] }

/-- Is a socket currently subscribed to a channel? -/
def subscribed (st : ServerState) (sid ch : String) : Bool :=
  st.subs.contains (sid, ch)

/-- Which sockets a recorded emission reaches, given the subscription
state at emission time. -/
def deliversTo (st : ServerState) (e : Emit) (sid : String) : Bool :=
  match e.target with
  | EmitTarget.toChannel ch => subscribed st sid ch
  | EmitTarget.toChannelExcept ch ex => subscribed st sid ch && !(sid == ex)
  | EmitTarget.toSocket s => sid == s

/-- Message.create: append a fresh message to the log and return it. -/
def createMessage (st : ServerState) (roomId : String) (sty : SenderType)
    (sender : Option String) (text : String) (atts : List String) :
    ServerState × Msg :=
  let m : Msg :=
    { id := st.nextMsgId, room := roomId, senderType := sty, sender := sender,
      text := text, attachments := atts, createdAt := st.now }
  ({ st with messages := st.messages ++ [m], nextMsgId := st.nextMsgId + 1 }, m)

/-! ### The engine operations -/

/-- Text of the PM-online banner. -/
def pmOnlineText : String := "----- PM IS ACTIVELY ONLINE -----"

/-- Text of the PM-assigned banner. -/
def pmAssignedText : String := "----- A PM HAS BEEN ASSIGNED -----"

/-- Text of the engineer banner. -/
def engineerText : String := "----- ENGINEER IS IN THE ROOM -----"

/-- Error string for a missing room. -/
def roomNotFound : String := "Room not found"

/-- The default PM greeting text for a given display name. -/
def pmGreeting (pmName : String) : String :=
  "Hi! I’m " ++ pmName ++
    ". I’ll coordinate this project and keep you updated here. " ++
    "Please share requirements, files, or questions anytime — we’ll get rolling."

/-- ensureSystemInline(roomId, text, emitAlso): persist the System
banner if missing and broadcast it as a message event; if it already
exists, only re-emit a lightweight system inline event. Every
invocation is recorded in the ensureCalls log. -/
def ensureSystemInline (st : ServerState) (roomId text : String) (emitAlso : Bool) :
    ServerState :=
  let st := { st with ensureCalls := st.ensureCalls ++ [(roomId, text)] }
  if msgExists st roomId SenderType.System text then
    if emitAlso then
      emit st { target := EmitTarget.toChannel roomId, event := "system",
                payload := Payload.systemInline roomId text st.now }
    else st
  else
    let res := createMessage st roomId SenderType.System none text []
    if emitAlso then
      emit res.1 { target := EmitTarget.toChannel roomId, event := "message",
                   payload := Payload.message res.2.id roomId none SenderType.System
                     "PM" "System" text [] res.2.createdAt }
    else res.1

/-- createAndEmitMessage(roomId, userDoc, text): persist a User message
and broadcast its echo with the resolved display name and role. -/
def createAndEmitMessage (st : ServerState) (roomId : String) (doc : UserDoc)
    (text : String) : ServerState :=
  let res := createMessage st roomId SenderType.User doc._id text []
  emit res.1
    { target := EmitTarget.toChannel roomId, event := "message",
      payload := Payload.message res.2.id roomId doc._id SenderType.User
        (jsOrOpt doc.role "User")
        (jsOr (filtJoin [doc.firstName, doc.lastName])
          (jsOr (emailLocalPart doc.email) "User"))
        text [] res.2.createdAt }

/-- The user document, or the literal fallback object of the greeting
call site. -/
def docOrFallback (u : Option UserRec) (uid : Option String) : UserDoc :=
  match u with
  | some r =>
    { _id := some r.uid, firstName := r.firstName, lastName := r.lastName,
      email := r.email, role := some r.role }
  | none => { _id := uid, firstName := none, lastName := none, email := none,
              role := some "PM" }

/-- Display name used by the generic join system event. -/
def joinDisplayName (u : Option UserRec) : String :=
  jsOr (filtJoin [u.bind (fun x => x.firstName), u.bind (fun x => x.lastName)])
    (jsOr ((u.bind (fun x => x.email)).getD "") "User")

/-- The client branch of the join handler: when the room already has a
PM assigned, ensure the PM-assigned banner. -/
def clientBranch (st : ServerState) (roomId : String) (role : String) : ServerState :=
  if containsCI role "client" then
    match findPR st roomId with
    | some pr =>
      if pr.pmAssigned then ensureSystemInline st roomId pmAssignedText true else st
    | none => st
  else st

/-- Display name used for the synthesized PM greeting. -/
def pmNameOf (u : Option UserRec) : String :=
  jsOr (filtJoin [u.bind (fun x => x.firstName), u.bind (fun x => x.lastName)]) "PM"

/-- Innermost part of the guarded PM block: ensure the PM-assigned
banner, then synthesize the greeting when no User-authored message
exists yet in the room. -/
def pmAssign (st : ServerState) (roomId : String) (u : Option UserRec)
    (uid : Option String) : ServerState :=
  let st1 := ensureSystemInline st roomId pmAssignedText true
  if msgExistsType st1 roomId SenderType.User then st1
  else createAndEmitMessage st1 roomId (docOrFallback u uid) (pmGreeting (pmNameOf u))

/-- The once-per-room guard around the PM-assigned block. -/
def pmGuard (st : ServerState) (roomId : String) (u : Option UserRec)
    (uid : Option String) : ServerState :=
  if st.pmAnnounced.contains roomId then st
  else pmAssign { st with pmAnnounced := st.pmAnnounced ++ [roomId] } roomId u uid

/-- The PM branch of the join handler: always ensure the PM-online
banner; then, once per room (process-local guard), ensure the
PM-assigned banner and, when no User-authored message exists yet,
synthesize the greeting. -/
def pmBranch (st : ServerState) (roomId : String) (u : Option UserRec)
    (uid : Option String) (role : String) : ServerState :=
  if testPMRole role then
    pmGuard (ensureSystemInline st roomId pmOnlineText true) roomId u uid
  else st

/-- The engineer branch of the join handler: record the first-join tag,
then ensure the engineer banner; the banner ensure runs on both sides
of the guard. -/
def engineerBranch (st : ServerState) (roomId : String) (uid : Option String)
    (role : String) : ServerState :=
  if containsCI role "engineer" then
    let tag := roomId ++ ":" ++ jsString uid
    if st.engineerFirstJoin.contains tag then
      ensureSystemInline st roomId engineerText true
    else
      let st := { st with engineerFirstJoin := st.engineerFirstJoin ++ [tag] }
      ensureSystemInline st roomId engineerText true
  else st

/-- The join event handler. -/
def handleJoin (st : ServerState) (sid : String) (doc : Option UserRec)
    (roomId : String) (uid : Option String) : ServerState :=
  match findRoom st roomId with
  | none =>
    emit st { target := EmitTarget.toSocket sid, event := "error",
              payload := Payload.error roomNotFound }
  | some _ =>
    let st1 := subJoin st sid roomId
    let st2 := emit st1 { target := EmitTarget.toSocket sid, event := "joined",
                          payload := Payload.joined roomId }
    let st3 :=
      match uid with
      | some u0 => subJoin st2 sid ("user:" ++ u0)
      | none => st2
    let u := resolveU st3.users doc uid
    let role := jsOrOpt (u.map (fun x => x.role)) "User"
    let st4 := emit st3
      { target := EmitTarget.toChannel roomId, event := "system",
        payload := Payload.systemJoin roomId uid (joinDisplayName u) role st3.now }
    let st5 := clientBranch st4 roomId role
    let st6 := pmBranch st5 roomId u uid role
    engineerBranch st6 roomId uid role

/-- The typing event handler. -/
def handleTyping (st : ServerState) (sid : String) (roomId : String)
    (uid : Option String) (role : Option String) (isTyping : Bool) : ServerState :=
  match findRoom st roomId with
  | none => st
  | some room =>
    let newTyping :=
      if isTyping then assocSet room.typing (jsString uid) (jsOrOpt role "User")
      else assocDelete room.typing (jsString uid)
    let st1 := { st with rooms := setRoomTypingFirst st.rooms roomId newTyping }
    emit st1 { target := EmitTarget.toChannelExcept roomId sid, event := "typing",
               payload := Payload.typing roomId uid role isTyping }

/-- The message event handler. -/
def handleMessage (st : ServerState) (sid : String) (doc : Option UserRec)
    (roomId : String) (uid : Option String) (text : String)
    (attachments : List String) : ServerState :=
  match findRoom st roomId with
  | none =>
    emit st { target := EmitTarget.toSocket sid, event := "error",
              payload := Payload.error roomNotFound }
  | some _ =>
    let u := resolveU st.users doc uid
    let res := createMessage st roomId SenderType.User uid text attachments
    emit res.1
      { target := EmitTarget.toChannel roomId, event := "message",
        payload := Payload.message res.2.id roomId uid SenderType.User
          (jsOrOpt (u.map (fun x => x.role)) "User")
          (jsOr (filtJoin [u.bind (fun x => x.firstName),
              u.bind (fun x => x.lastName)]) "User")
          text attachments res.2.createdAt }

/-- The connection handler (Increment): for an identified connection,
join the personal channel, raise the refcount and write the online
flag. Anonymous connections do nothing. -/
def handleConnect (st : ServerState) (sid : String) (userId : Option String) :
    ServerState :=
  match userId with
  | none => st
  | some uid =>
    let st1 := subJoin st sid ("user:" ++ uid)
    let st2 := { st1 with
      presence := assocSet st1.presence uid (refcountL st1.presence uid + 1) }
    userSetOnline st2 uid true st2.now

/-- JS `(presence.get(userId) || 1)`: an absent key and a stored 0 both
read as 1. -/
def jsGetOr1 (g : Option Nat) : Nat :=
  match g with
  | some k => if k == 0 then 1 else k
  | none => 1

/-- The disconnect handler (Decrement): lower the refcount; when it
reaches 0, delete the entry and write the offline flag. -/
def handleDisconnect (st : ServerState) (userId : Option String) : ServerState :=
  match userId with
  | none => st
  | some uid =>
    let remaining := jsGetOr1 (assocGet st.presence uid) - 1
    if remaining ≤ 0 then
      let st1 := { st with presence := assocDelete st.presence uid }
      userSetOnline st1 uid false st1.now
    else
      { st with presence := assocSet st.presence uid remaining }

/-- A presence-relevant lifecycle operation of the process. -/
inductive POp where
  | connect : String → Option String → POp
  | disconnect : Option String → POp

/-- Apply one lifecycle operation. -/
def applyPOp (st : ServerState) : POp → ServerState
  | POp.connect sid uidOpt => handleConnect st sid uidOpt
  | POp.disconnect uidOpt => handleDisconnect st uidOpt

/-- Apply a sequence of lifecycle operations, in order. -/
def applyPOps (st : ServerState) : List POp → ServerState
  | [] => st
  | op :: rest => applyPOps (applyPOp st op) rest

/-- The presence invariant: every user that has a record in the
identity store is durably online exactly when their in-memory refcount
is positive. -/
def presenceInvariant (st : ServerState) : Prop :=
  ∀ uid : String, (findUserL st.users uid).isSome = true →
    (onlineOf st uid = true ↔ 0 < refcount st uid)

/-! ### Message predicates and counting helpers -/

/-- A System banner with a given room and exact text. -/
def isBanner (r t : String) (m : Msg) : Bool :=
  m.room == r && m.senderType == SenderType.System && m.text == t

/-- A User-authored message in a given room. -/
def isUserIn (r : String) (m : Msg) : Bool :=
  m.room == r && m.senderType == SenderType.User

/-- A User-authored message in a given room with a given exact text. -/
def isUserText (r t : String) (m : Msg) : Bool :=
  m.room == r && m.senderType == SenderType.User && m.text == t

/-- Length of the filtered list. -/
def countL (l : List Msg) (p : Msg → Bool) : Nat := (l.filter p).length

theorem countMsgs_eq_countL (st : ServerState) (p : Msg → Bool) :
    countMsgs st p = countL st.messages p := rfl

theorem countL_append_single (l : List Msg) (m : Msg) (p : Msg → Bool) :
    countL (l ++ [m]) p = countL l p + (if p m then 1 else 0) := by
  simp only [countL, List.filter_append, List.length_append]
  by_cases h : p m <;> simp [h]

theorem any_append_single (l : List Msg) (m : Msg) (p : Msg → Bool) :
    (l ++ [m]).any p = (l.any p || p m) := by
  simp [List.any_append]

theorem countL_eq_zero_of_any_false (l : List Msg) (p : Msg → Bool)
    (h : l.any p = false) : countL l p = 0 := by
  simp only [countL, List.length_eq_zero]
  rw [List.filter_eq_nil_iff]
  intro a ha
  have := List.any_eq_false.mp h a ha
  simpa using this

theorem countL_le_of_imp (l : List Msg) (p q : Msg → Bool)
    (h : ∀ m, p m = true → q m = true) (hq : l.any q = false) : countL l p = 0 := by
  apply countL_eq_zero_of_any_false
  rw [List.any_eq_false]
  intro a ha hpa
  exact (List.any_eq_false.mp hq a ha) (h a hpa)

/-! ### Field-preservation lemmas for the primitive transformers -/

@[simp] theorem emit_messages (st : ServerState) (e : Emit) :
    (emit st e).messages = st.messages := rfl

@[simp] theorem emit_users (st : ServerState) (e : Emit) :
    (emit st e).users = st.users := rfl

@[simp] theorem emit_presence (st : ServerState) (e : Emit) :
    (emit st e).presence = st.presence := rfl

@[simp] theorem emit_rooms (st : ServerState) (e : Emit) :
    (emit st e).rooms = st.rooms := rfl

@[simp] theorem emit_projectRequests (st : ServerState) (e : Emit) :
    (emit st e).projectRequests = st.projectRequests := rfl

@[simp] theorem emit_subs (st : ServerState) (e : Emit) :
    (emit st e).subs = st.subs := rfl

@[simp] theorem emit_pmAnnounced (st : ServerState) (e : Emit) :
    (emit st e).pmAnnounced = st.pmAnnounced := rfl

@[simp] theorem emit_engineerFirstJoin (st : ServerState) (e : Emit) :
    (emit st e).engineerFirstJoin = st.engineerFirstJoin := rfl

@[simp] theorem emit_ensureCalls (st : ServerState) (e : Emit) :
    (emit st e).ensureCalls = st.ensureCalls := rfl

@[simp] theorem emit_now (st : ServerState) (e : Emit) :
    (emit st e).now = st.now := rfl

@[simp] theorem emit_nextMsgId (st : ServerState) (e : Emit) :
    (emit st e).nextMsgId = st.nextMsgId := rfl

@[simp] theorem emit_emitted (st : ServerState) (e : Emit) :
    (emit st e).emitted = st.emitted ++ [e] := rfl

@[simp] theorem subJoin_messages (st : ServerState) (sid ch : String) :
    (subJoin st sid ch).messages = st.messages := by
  unfold subJoin; split <;> rfl

@[simp] theorem subJoin_users (st : ServerState) (sid ch : String) :
    (subJoin st sid ch).users = st.users := by
  unfold subJoin; split <;> rfl

@[simp] theorem subJoin_presence (st : ServerState) (sid ch : String) :
    (subJoin st sid ch).presence = st.presence := by
  unfold subJoin; split <;> rfl

@[simp] theorem subJoin_rooms (st : ServerState) (sid ch : String) :
    (subJoin st sid ch).rooms = st.rooms := by
  unfold subJoin; split <;> rfl

@[simp] theorem subJoin_now (st : ServerState) (sid ch : String) :
    (subJoin st sid ch).now = st.now := by
  unfold subJoin; split <;> rfl

@[simp] theorem subJoin_nextMsgId (st : ServerState) (sid ch : String) :
    (subJoin st sid ch).nextMsgId = st.nextMsgId := by
  unfold subJoin; split <;> rfl

@[simp] theorem subJoin_ensureCalls (st : ServerState) (sid ch : String) :
    (subJoin st sid ch).ensureCalls = st.ensureCalls := by
  unfold subJoin; split <;> rfl

@[simp] theorem subJoin_pmAnnounced (st : ServerState) (sid ch : String) :
    (subJoin st sid ch).pmAnnounced = st.pmAnnounced := by
  unfold subJoin; split <;> rfl

@[simp] theorem subJoin_emitted (st : ServerState) (sid ch : String) :
    (subJoin st sid ch).emitted = st.emitted := by
  unfold subJoin; split <;> rfl

/-- The message the dedup component persists when the banner is missing. -/
def mkSysMsg (st : ServerState) (roomId text : String) : Msg :=
  { id := st.nextMsgId, room := roomId, senderType := SenderType.System,
    sender := none, text := text, attachments := [], createdAt := st.now }

/-- The message-event payload the dedup component broadcasts for a
fresh banner. -/
def sysBannerEmit (st : ServerState) (roomId text : String) : Emit :=
  { target := EmitTarget.toChannel roomId, event := "message",
    payload := Payload.message st.nextMsgId roomId none SenderType.System
      "PM" "System" text [] st.now }

/-- The lightweight inline event re-emitted when the banner already
exists. -/
def sysInlineEmit (st : ServerState) (roomId text : String) : Emit :=
  { target := EmitTarget.toChannel roomId, event := "system",
    payload := Payload.systemInline roomId text st.now }

@[simp] theorem msgExists_callsUpdate (st : ServerState) (c : List (String × String))
    (r : String) (ty : SenderType) (t : String) :
    msgExists { st with ensureCalls := c } r ty t = msgExists st r ty t := rfl

theorem ensure_messages (st : ServerState) (roomId text : String) (b : Bool) :
    (ensureSystemInline st roomId text b).messages =
      (if msgExists st roomId SenderType.System text then st.messages
       else st.messages ++ [mkSysMsg st roomId text]) := by
  unfold ensureSystemInline createMessage
  by_cases h : msgExists st roomId SenderType.System text <;>
    cases b <;> simp [h, emit, mkSysMsg]

theorem ensure_emitted (st : ServerState) (roomId text : String) :
    (ensureSystemInline st roomId text true).emitted =
      (if msgExists st roomId SenderType.System text
       then st.emitted ++ [sysInlineEmit st roomId text]
       else st.emitted ++ [sysBannerEmit st roomId text]) := by
  unfold ensureSystemInline createMessage
  by_cases h : msgExists st roomId SenderType.System text <;>
    simp [h, emit, sysInlineEmit, sysBannerEmit]

theorem ensure_ensureCalls (st : ServerState) (roomId text : String) (b : Bool) :
    (ensureSystemInline st roomId text b).ensureCalls =
      st.ensureCalls ++ [(roomId, text)] := by
  unfold ensureSystemInline createMessage
  by_cases h : msgExists st roomId SenderType.System text <;>
    cases b <;> simp [h, emit]

theorem ensure_users (st : ServerState) (roomId text : String) (b : Bool) :
    (ensureSystemInline st roomId text b).users = st.users := by
  unfold ensureSystemInline createMessage
  by_cases h : msgExists st roomId SenderType.System text <;>
    cases b <;> simp [h, emit]

/-! ### The stored message and echo of a posted chat message -/

/-- The message the message handler persists. -/
def userMsgOf (st : ServerState) (roomId : String) (uid : Option String)
    (text : String) (atts : List String) : Msg :=
  { id := st.nextMsgId, room := roomId, senderType := SenderType.User, sender := uid,
    text := text, attachments := atts, createdAt := st.now }

/-- The canonical echo of a persisted message, carrying the resolved
display name and role of the sender. -/
def userEchoEmit (m : Msg) (u : Option UserRec) : Emit :=
  { target := EmitTarget.toChannel m.room, event := "message",
    payload := Payload.message m.id m.room m.sender SenderType.User
      (jsOrOpt (u.map (fun x => x.role)) "User")
      (jsOr (filtJoin [u.bind (fun x => x.firstName), u.bind (fun x => x.lastName)])
        "User")
      m.text m.attachments m.createdAt }

/-- The typing event broadcast to the peers of the origin connection. -/
def typingEmit (roomId sid : String) (uid role : Option String)
    (isTyping : Bool) : Emit :=
  { target := EmitTarget.toChannelExcept roomId sid, event := "typing",
    payload := Payload.typing roomId uid role isTyping }

/-- The error event sent to the originating connection when the room
does not resolve. -/
def errEmit (sid : String) : Emit :=
  { target := EmitTarget.toSocket sid, event := "error",
    payload := Payload.error roomNotFound }

/-! ### Claim theorems -/

/-- C1: ensureSystemInline is deduplicated by the message store: when a
System message with exactly this text already exists in the room, no
new message is persisted (only a lightweight inline event is re-emitted);
otherwise exactly one new System message with sender none and the given
text is persisted and broadcast to the room as a normal message event. -/
theorem ensureSystemInline_dedup_spec (st : ServerState) (roomId text : String) :
    ((ensureSystemInline st roomId text true).messages =
      (if msgExists st roomId SenderType.System text then st.messages
       else st.messages ++ [mkSysMsg st roomId text])) ∧
    ((ensureSystemInline st roomId text true).emitted =
      (if msgExists st roomId SenderType.System text
       then st.emitted ++ [sysInlineEmit st roomId text]
       else st.emitted ++ [sysBannerEmit st roomId text])) ∧
    (mkSysMsg st roomId text).senderType = SenderType.System ∧
    (mkSysMsg st roomId text).sender = none ∧
    (mkSysMsg st roomId text).text = text ∧
    (mkSysMsg st roomId text).room = roomId ∧
    (sysBannerEmit st roomId text).target = EmitTarget.toChannel roomId ∧
    (sysBannerEmit st roomId text).event = "message" :=
  ⟨ensure_messages st roomId text true, ensure_emitted st roomId text,
    rfl, rfl, rfl, rfl, rfl, rfl⟩

/-- C10: whenever ensureSystemInline persists and broadcasts a fresh
System banner, the broadcast message payload carries senderRole "PM"
and senderName "System", for every banner text. -/
theorem system_banner_identity_fields (st : ServerState) (roomId text : String)
    (h : msgExists st roomId SenderType.System text = false) :
    (ensureSystemInline st roomId text true).emitted =
      st.emitted ++
        [{ target := EmitTarget.toChannel roomId, event := "message",
           payload := Payload.message st.nextMsgId roomId none SenderType.System
             "PM" "System" text [] st.now }] := by
  rw [ensure_emitted]
  simp [h, sysBannerEmit]

/-- A fresh state used to witness the banner identity claim on the
engineer banner text. -/
def stW10 : ServerState :=
  { messages := [], nextMsgId := 0, users := [], rooms := [], projectRequests := [],
    presence := [], pmAnnounced := [], engineerFirstJoin := [], subs := [],
    emitted := [], ensureCalls := [], now := 5 }

/-- Witness for C10 at the engineer banner text. -/
theorem system_banner_identity_fields_witness :
    (ensureSystemInline stW10 "r1" engineerText true).emitted =
      [{ target := EmitTarget.toChannel "r1", event := "message",
         payload := Payload.message 0 "r1" none SenderType.System "PM" "System"
           engineerText [] 5 }] :=
  system_banner_identity_fields stW10 "r1" engineerText (by decide)

/-- C4: a join, typing or message event whose roomId does not resolve
mutates no store: join and message only append an error event addressed
to the originating socket, typing is silently dropped, and the error
event is delivered to the originating connection only. -/
theorem no_room_no_mutation (st : ServerState) (sid : String) (doc : Option UserRec)
    (roomId : String) (uid : Option String) (role : Option String) (isTyping : Bool)
    (text : String) (atts : List String)
    (h : findRoom st roomId = none) :
    handleJoin st sid doc roomId uid =
      { st with emitted := st.emitted ++ [errEmit sid] } ∧
    handleTyping st sid roomId uid role isTyping = st ∧
    handleMessage st sid doc roomId uid text atts =
      { st with emitted := st.emitted ++ [errEmit sid] } ∧
    (∀ s : String, deliversTo st (errEmit sid) s = (s == sid)) := by
  refine ⟨?_, ?_, ?_, fun s => rfl⟩
  · unfold handleJoin
    rw [h]
    rfl
  · unfold handleTyping
    rw [h]
  · unfold handleMessage
    rw [h]
    rfl

/-- State with rooms used to witness the no-room claims: the room list
does not contain r9. -/
def stW4 : ServerState :=
  { messages := [], nextMsgId := 0,
    users := [{ uid := "u1", firstName := some "Ann", lastName := none,
                email := some "a@x.y", role := "PM", online := false,
                lastActive := 0, tokenVersion := 1 }],
    rooms := [{ rid := "r1", typing := [] }], projectRequests := [],
    presence := [], pmAnnounced := [], engineerFirstJoin := [],
    subs := [("s1", "r1")], emitted := [], ensureCalls := [], now := 2 }

/-- Witness for C4: a typing event towards a missing room leaves the
state untouched. -/
theorem no_room_no_mutation_witness :
    handleTyping stW4 "s1" "r9" (some "u1") (some "PM") true = stW4 :=
  (no_room_no_mutation stW4 "s1" none "r9" (some "u1") (some "PM") true "hi" []
    (by decide)).2.1

/-- C7: a typing event towards an existing room is broadcast with the
roomId, userId, role and isTyping payload to every other subscriber of
the room and is never delivered back to the originating connection. -/
theorem typing_excludes_origin (st : ServerState) (sid roomId : String)
    (uid role : Option String) (isTyping : Bool) (room : Room)
    (h : findRoom st roomId = some room) :
    (handleTyping st sid roomId uid role isTyping).emitted =
      st.emitted ++ [typingEmit roomId sid uid role isTyping] ∧
    (∀ s : String,
      deliversTo (handleTyping st sid roomId uid role isTyping)
        (typingEmit roomId sid uid role isTyping) s =
        (subscribed st s roomId && !(s == sid))) ∧
    deliversTo (handleTyping st sid roomId uid role isTyping)
      (typingEmit roomId sid uid role isTyping) sid = false := by
  unfold handleTyping
  rw [h]
  refine ⟨rfl, fun s => rfl, ?_⟩
  show (subscribed _ sid roomId && !(sid == sid)) = false
  simp

/-- State with one room and two subscribers used to witness the typing
and echo claims. -/
def stW7 : ServerState :=
  { messages := [], nextMsgId := 0, users := [], rooms := [{ rid := "r1", typing := [] }],
    projectRequests := [], presence := [], pmAnnounced := [], engineerFirstJoin := [],
    subs := [("sA", "r1"), ("sB", "r1")], emitted := [], ensureCalls := [], now := 2 }

/-- Witness for C7: the origin socket never receives its own typing
event. -/
theorem typing_excludes_origin_witness :
    deliversTo (handleTyping stW7 "sA" "r1" (some "u1") (some "PM") true)
      (typingEmit "r1" "sA" (some "u1") (some "PM") true) "sA" = false :=
  (typing_excludes_origin stW7 "sA" "r1" (some "u1") (some "PM") true
    { rid := "r1", typing := [] } (by decide)).2.2

/-- C8: a message event towards an existing room persists one User
message and broadcasts its canonical echo (persisted id, createdAt,
senderType User, resolved name and role) to exactly the connections
subscribed to the room, including the sender when the sender is
subscribed. -/
theorem message_echo_to_room (st : ServerState) (sid : String) (doc : Option UserRec)
    (roomId : String) (uid : Option String) (text : String) (atts : List String)
    (room : Room) (h : findRoom st roomId = some room) :
    (handleMessage st sid doc roomId uid text atts).messages =
      st.messages ++ [userMsgOf st roomId uid text atts] ∧
    (handleMessage st sid doc roomId uid text atts).emitted =
      st.emitted ++
        [userEchoEmit (userMsgOf st roomId uid text atts) (resolveU st.users doc uid)] ∧
    (∀ s : String,
      deliversTo (handleMessage st sid doc roomId uid text atts)
        (userEchoEmit (userMsgOf st roomId uid text atts) (resolveU st.users doc uid))
        s = subscribed st s roomId) ∧
    (subscribed st sid roomId = true →
      deliversTo (handleMessage st sid doc roomId uid text atts)
        (userEchoEmit (userMsgOf st roomId uid text atts) (resolveU st.users doc uid))
        sid = true) := by
  unfold handleMessage
  rw [h]
  exact ⟨rfl, rfl, fun s => rfl, fun hs => hs⟩

/-- Witness for C8: the sending socket, being subscribed, receives its
own canonical echo. -/
theorem message_echo_to_room_witness :
    deliversTo (handleMessage stW7 "sA" none "r1" (some "u1") "hello" [])
      (userEchoEmit (userMsgOf stW7 "r1" (some "u1") "hello" [])
        (resolveU stW7.users none (some "u1"))) "sA" = true :=
  (message_echo_to_room stW7 "sA" none "r1" (some "u1") "hello" []
    { rid := "r1", typing := [] } (by decide)).2.2.2 (by decide)

/-! ### Lemmas about the identity-store write and the presence map -/

/-- The projection of a user record onto everything a presence write
must not touch. -/
def frameView (u : UserRec) :
    String × Option String × Option String × Option String × String × Nat :=
  (u.uid, u.firstName, u.lastName, u.email, u.role, u.tokenVersion)

theorem setOnlineFirst_frame (l : List UserRec) (uid : String) (b : Bool) (t : Nat) :
    (setOnlineFirst l uid b t).map frameView = l.map frameView := by
  induction l with
  | nil => rfl
  | cons u rest ih =>
    cases h1 : u.uid == uid
    · simp [setOnlineFirst, h1, ih]
    · simp [setOnlineFirst, h1, frameView]

theorem findUserL_setOnlineFirst_self (l : List UserRec) (uid : String) (b : Bool)
    (t : Nat) :
    findUserL (setOnlineFirst l uid b t) uid =
      (findUserL l uid).map (fun u => { u with online := b, lastActive := t }) := by
  induction l with
  | nil => rfl
  | cons u rest ih =>
    cases h1 : u.uid == uid
    · simp [setOnlineFirst, findUserL, h1, ih]
    · simp [setOnlineFirst, findUserL, h1]

theorem findUserL_setOnlineFirst_other (l : List UserRec) (uid uid' : String)
    (b : Bool) (t : Nat) (h : uid' ≠ uid) :
    findUserL (setOnlineFirst l uid b t) uid' = findUserL l uid' := by
  induction l with
  | nil => rfl
  | cons u rest ih =>
    cases h1 : u.uid == uid
    · simp [setOnlineFirst, findUserL, h1, ih]
    · have hu : u.uid = uid := by simpa using h1
      have h2 : (u.uid == uid') = false := by
        rw [hu]; exact beq_eq_false_iff_ne.mpr (Ne.symm h)
      simp [setOnlineFirst, findUserL, h1, h2]

theorem assocGet_set_self {α : Type} (l : List (String × α)) (k : String) (v : α) :
    assocGet (assocSet l k v) k = some v := by
  induction l with
  | nil => simp [assocSet, assocGet]
  | cons p rest ih =>
    cases h1 : p.1 == k
    · simp [assocSet, assocGet, h1, ih]
    · simp [assocSet, assocGet, h1]

theorem assocGet_set_other {α : Type} (l : List (String × α)) (k k' : String) (v : α)
    (h : k' ≠ k) : assocGet (assocSet l k v) k' = assocGet l k' := by
  have h2 : (k == k') = false := beq_eq_false_iff_ne.mpr (Ne.symm h)
  induction l with
  | nil => simp [assocSet, assocGet, h2]
  | cons p rest ih =>
    cases h1 : p.1 == k
    · simp [assocSet, assocGet, h1, ih]
    · have hp : p.1 = k := by simpa using h1
      have h3 : (p.1 == k') = false := by rw [hp]; exact h2
      simp [assocSet, assocGet, h1, h2, h3]

theorem assocGet_delete_self {α : Type} (l : List (String × α)) (k : String) :
    assocGet (assocDelete l k) k = none := by
  induction l with
  | nil => rfl
  | cons p rest ih =>
    cases h1 : p.1 == k
    · simp [assocDelete, assocGet, List.filter_cons, h1, ih]
      simpa [assocDelete] using ih
    · simpa [assocDelete, assocGet, List.filter_cons, h1] using ih

theorem assocGet_delete_other {α : Type} (l : List (String × α)) (k k' : String)
    (h : k' ≠ k) : assocGet (assocDelete l k) k' = assocGet l k' := by
  induction l with
  | nil => rfl
  | cons p rest ih =>
    cases h1 : p.1 == k
    · cases h2 : p.1 == k'
      · simp [assocDelete, assocGet, List.filter_cons, h1, h2]
        simpa [assocDelete] using ih
      · simp [assocDelete, assocGet, List.filter_cons, h1, h2]
    · have hp : p.1 = k := by simpa using h1
      have h2 : (p.1 == k') = false := by
        rw [hp]; exact beq_eq_false_iff_ne.mpr (Ne.symm h)
      simpa [assocDelete, assocGet, List.filter_cons, h1, h2] using ih

/-- The presence map produced by an identified connection attach. -/
theorem handleConnect_presence (st : ServerState) (sid uid : String) :
    (handleConnect st sid (some uid)).presence =
      assocSet st.presence uid (refcount st uid + 1) := by
  unfold handleConnect userSetOnline
  simp [refcount, refcountL]

/-- The identity store produced by an identified connection attach. -/
theorem handleConnect_users (st : ServerState) (sid uid : String) :
    (handleConnect st sid (some uid)).users =
      setOnlineFirst st.users uid true st.now := by
  unfold handleConnect userSetOnline
  simp

/-- Unfolding of the disconnect handler on an identified connection. -/
theorem handleDisconnect_eq (st : ServerState) (uid : String) :
    handleDisconnect st (some uid) =
      if jsGetOr1 (assocGet st.presence uid) - 1 ≤ 0 then
        userSetOnline { st with presence := assocDelete st.presence uid } uid false st.now
      else
        { st with
          presence := assocSet st.presence uid (jsGetOr1 (assocGet st.presence uid) - 1) } := rfl

/-- C3 as corrected: Increment raises the refcount by one and performs
the durable write online, lastActive on every identified attach,
regardless of the refcount before the call (the write is not restricted
to 0-to-1 transitions). -/
theorem increment_always_writes (st : ServerState) (sid uid : String) :
    refcount (handleConnect st sid (some uid)) uid = refcount st uid + 1 ∧
    (∀ u : UserRec, findUserL st.users uid = some u →
      findUserL (handleConnect st sid (some uid)).users uid =
        some { u with online := true, lastActive := st.now }) := by
  refine ⟨?_, fun u hu => ?_⟩
  · rw [refcount, handleConnect_presence, refcountL, assocGet_set_self]
    rfl
  · rw [handleConnect_users, findUserL_setOnlineFirst_self, hu]
    rfl

/-- State in which user u1 already has one live connection and a stale
lastActive value; used to refute the 0-to-1-only claim. -/
def stC3 : ServerState :=
  { messages := [], nextMsgId := 0,
    users := [{ uid := "u1", firstName := none, lastName := none, email := none,
                role := "User", online := true, lastActive := 5, tokenVersion := 7 }],
    rooms := [], projectRequests := [], presence := [("u1", 1)],
    pmAnnounced := [], engineerFirstJoin := [], subs := [], emitted := [],
    ensureCalls := [], now := 10 }

/-- Counterexample to C3 as stated: with a refcount of 1 (not 0) before
the call, the attach still performs the durable write, observable as
lastActive moving from 5 to the current clock 10. -/
theorem increment_writes_despite_positive_refcount :
    0 < refcount stC3 "u1" ∧
    lastActiveOf stC3 "u1" = 5 ∧
    lastActiveOf (handleConnect stC3 "s2" (some "u1")) "u1" = 10 ∧
    onlineOf (handleConnect stC3 "s2" (some "u1")) "u1" = true := by
  decide

/-- Witness for the corrected C3 at a state with a positive refcount. -/
theorem increment_always_writes_witness :
    findUserL (handleConnect stC3 "s2" (some "u1")).users "u1" =
      some { uid := "u1", firstName := none, lastName := none, email := none,
             role := "User", online := true, lastActive := 10, tokenVersion := 7 } :=
  (increment_always_writes stC3 "s2" "u1").2
    { uid := "u1", firstName := none, lastName := none, email := none,
      role := "User", online := true, lastActive := 5, tokenVersion := 7 }
    (by decide)

/-- C9: the durable presence writes of connect and disconnect change at
most the online and lastActive fields: the frame view (uid, names,
email, role, tokenVersion) of every user record is unchanged. -/
theorem presence_writes_preserve_frame (st : ServerState) (sid : String)
    (uidOpt : Option String) :
    ((handleConnect st sid uidOpt).users.map frameView = st.users.map frameView) ∧
    ((handleDisconnect st uidOpt).users.map frameView = st.users.map frameView) := by
  constructor
  · cases uidOpt with
    | none => rfl
    | some uid =>
      rw [handleConnect_users, setOnlineFirst_frame]
  · cases uidOpt with
    | none => rfl
    | some uid =>
      rw [handleDisconnect_eq]
      split <;> simp [userSetOnline, setOnlineFirst_frame]

/-! ### The presence invariant (C2) -/

theorem jsGetOr1_sub_one (g : Option Nat) : jsGetOr1 g - 1 = g.getD 0 - 1 := by
  cases g with
  | none => rfl
  | some k =>
    cases k with
    | zero => rfl
    | succ n => rfl

theorem onlineOf_eq (st : ServerState) (uid : String) :
    onlineOf st uid = ((findUserL st.users uid).map (fun u => u.online)).getD false := by
  unfold onlineOf
  cases findUserL st.users uid <;> rfl

theorem refcount_def (st : ServerState) (uid : String) :
    refcount st uid = (assocGet st.presence uid).getD 0 := rfl

@[simp] theorem userSetOnline_users (st : ServerState) (uid : String) (b : Bool) (t : Nat) :
    (userSetOnline st uid b t).users = setOnlineFirst st.users uid b t := rfl

@[simp] theorem userSetOnline_presence (st : ServerState) (uid : String) (b : Bool) (t : Nat) :
    (userSetOnline st uid b t).presence = st.presence := rfl

@[simp] theorem presenceUpdate_users (st : ServerState) (p : List (String × Nat)) :
    ({ st with presence := p } : ServerState).users = st.users := rfl

@[simp] theorem presenceUpdate_presence (st : ServerState) (p : List (String × Nat)) :
    ({ st with presence := p } : ServerState).presence = p := rfl

theorem presenceInvariant_connect (st : ServerState) (sid : String)
    (uidOpt : Option String) (h : presenceInvariant st) :
    presenceInvariant (handleConnect st sid uidOpt) := by
  cases uidOpt with
  | none => exact h
  | some uid =>
    intro uid' h'
    rw [handleConnect_users] at h'
    rw [onlineOf_eq, refcount_def, handleConnect_users, handleConnect_presence]
    by_cases hq : uid' = uid
    · subst hq
      rw [findUserL_setOnlineFirst_self] at h'
      rw [findUserL_setOnlineFirst_self, assocGet_set_self]
      cases hf : findUserL st.users uid' with
      | none => rw [hf] at h'; simp at h'
      | some u => simp
    · rw [findUserL_setOnlineFirst_other _ _ _ _ _ hq] at h'
      rw [findUserL_setOnlineFirst_other _ _ _ _ _ hq, assocGet_set_other _ _ _ _ hq]
      have := h uid' h'
      rw [onlineOf_eq, refcount_def] at this
      exact this

theorem presenceInvariant_disconnect (st : ServerState) (uidOpt : Option String)
    (h : presenceInvariant st) : presenceInvariant (handleDisconnect st uidOpt) := by
  cases uidOpt with
  | none => exact h
  | some uid =>
    rw [handleDisconnect_eq]
    split
    · -- the refcount reached 0: the entry is deleted and offline written
      intro uid' h'
      simp only [userSetOnline_users, presenceUpdate_users] at h'
      rw [onlineOf_eq, refcount_def]
      simp only [userSetOnline_users, presenceUpdate_users, userSetOnline_presence,
        presenceUpdate_presence]
      by_cases hq : uid' = uid
      · subst hq
        rw [assocGet_delete_self, findUserL_setOnlineFirst_self]
        cases hf : findUserL st.users uid' with
        | none => simp
        | some u => simp
      · rw [assocGet_delete_other _ _ _ hq, findUserL_setOnlineFirst_other _ _ _ _ _ hq]
        rw [findUserL_setOnlineFirst_other _ _ _ _ _ hq] at h'
        have := h uid' h'
        rw [onlineOf_eq, refcount_def] at this
        exact this
    · -- the refcount stays positive: only the map entry is lowered
      rename_i hc
      intro uid' h'
      have hg : 2 ≤ (assocGet st.presence uid).getD 0 := by
        rw [jsGetOr1_sub_one] at hc
        omega
      simp only [presenceUpdate_users] at h'
      rw [onlineOf_eq, refcount_def]
      simp only [presenceUpdate_users, presenceUpdate_presence]
      by_cases hq : uid' = uid
      · subst hq
        rw [assocGet_set_self, jsGetOr1_sub_one]
        have holdOn := h uid' h'
        rw [onlineOf_eq, refcount_def] at holdOn
        simp only [Option.getD_some]
        constructor
        · intro _
          omega
        · intro _
          exact holdOn.mpr (by omega)
      · rw [assocGet_set_other _ _ _ _ hq]
        have := h uid' h'
        rw [onlineOf_eq, refcount_def] at this
        exact this

theorem presenceInvariant_applyPOps (st : ServerState) (ops : List POp)
    (h : presenceInvariant st) : presenceInvariant (applyPOps st ops) := by
  induction ops generalizing st with
  | nil => exact h
  | cons op rest ih =>
    cases op with
    | connect sid u => exact ih _ (presenceInvariant_connect _ _ _ h)
    | disconnect u => exact ih _ (presenceInvariant_disconnect _ _ h)

theorem disconnect_refcount_floor (st : ServerState) (uid : String) :
    refcount (handleDisconnect st (some uid)) uid = refcount st uid - 1 := by
  rw [handleDisconnect_eq]
  split
  · rename_i hc
    rw [jsGetOr1_sub_one] at hc
    rw [refcount_def]
    simp only [userSetOnline_presence, presenceUpdate_presence]
    rw [assocGet_delete_self, refcount_def]
    simp only [Option.getD_none]
    omega
  · rw [refcount_def]
    simp only [presenceUpdate_presence]
    rw [assocGet_set_self, jsGetOr1_sub_one]
    rfl

theorem disconnect_no_write_if_ge2 (st : ServerState) (uid : String)
    (h2 : 2 ≤ refcount st uid) :
    (handleDisconnect st (some uid)).users = st.users := by
  have hc : ¬(jsGetOr1 (assocGet st.presence uid) - 1 ≤ 0) := by
    rw [jsGetOr1_sub_one]
    rw [refcount_def] at h2
    omega
  rw [handleDisconnect_eq, if_neg hc]

theorem disconnect_offline_if_le1 (st : ServerState) (uid : String)
    (h1 : refcount st uid ≤ 1) :
    refcount (handleDisconnect st (some uid)) uid = 0 ∧
    onlineOf (handleDisconnect st (some uid)) uid = false := by
  rw [refcount_def] at h1
  rw [handleDisconnect_eq, if_pos (by rw [jsGetOr1_sub_one]; omega)]
  constructor
  · rw [refcount_def]
    simp only [userSetOnline_presence, presenceUpdate_presence]
    rw [assocGet_delete_self]
    rfl
  · rw [onlineOf_eq]
    simp only [userSetOnline_users, presenceUpdate_users]
    rw [findUserL_setOnlineFirst_self]
    cases hf : findUserL st.users uid with
    | none => rfl
    | some u => rfl

/-- C2: after any sequence of connect and disconnect handlers settles,
every stored user is durably online exactly when their in-memory
refcount is positive; the disconnect handler floors the refcount at 0,
performs no durable write while the refcount stays positive, and writes
the offline flag exactly when the count reaches 0. -/
theorem presence_online_iff_refcount (st : ServerState) (ops : List POp)
    (h : presenceInvariant st) :
    presenceInvariant (applyPOps st ops) ∧
    (∀ uid : String,
      refcount (handleDisconnect st (some uid)) uid = refcount st uid - 1) ∧
    (∀ uid : String, 2 ≤ refcount st uid →
      (handleDisconnect st (some uid)).users = st.users) ∧
    (∀ uid : String, refcount st uid ≤ 1 →
      refcount (handleDisconnect st (some uid)) uid = 0 ∧
      onlineOf (handleDisconnect st (some uid)) uid = false) :=
  ⟨presenceInvariant_applyPOps st ops h,
   fun uid => disconnect_refcount_floor st uid,
   fun uid h2 => disconnect_no_write_if_ge2 st uid h2,
   fun uid h1 => disconnect_offline_if_le1 st uid h1⟩

/-- Fresh empty state used to witness the presence invariant claims. -/
def stW2 : ServerState :=
  { messages := [], nextMsgId := 0, users := [], rooms := [], projectRequests := [],
    presence := [], pmAnnounced := [], engineerFirstJoin := [], subs := [],
    emitted := [], ensureCalls := [], now := 1 }

/-- Witness for C2 on a concrete operation sequence. -/
theorem presence_online_iff_refcount_witness :
    refcount (handleDisconnect stW2 (some "u1")) "u1" = refcount stW2 "u1" - 1 :=
  ((presence_online_iff_refcount stW2
      [POp.connect "s1" (some "u1"), POp.disconnect (some "u1")]
      (by intro uid hu; simp [stW2, findUserL] at hu)).2.1) "u1"

/-! ### Join-step preservation of banner and greeting counts (C5) -/

theorem countMsgs_congr {st st' : ServerState} (h : st'.messages = st.messages)
    (p : Msg → Bool) : countMsgs st' p = countMsgs st p := by
  unfold countMsgs
  rw [h]

theorem msgExistsType_congr {st st' : ServerState} (h : st'.messages = st.messages)
    (r : String) (ty : SenderType) :
    msgExistsType st' r ty = msgExistsType st r ty := by
  unfold msgExistsType
  rw [h]

theorem msgExists_eq_any_isBanner (st : ServerState) (r t : String) :
    msgExists st r SenderType.System t = st.messages.any (isBanner r t) := rfl

theorem msgExistsType_eq_any_isUserIn (st : ServerState) (r : String) :
    msgExistsType st r SenderType.User = st.messages.any (isUserIn r) := rfl

/-- What one internal step of the join handler preserves, relative to a
fixed room r and candidate greeting text t0: the at-most-one bound on
the PM-assigned banner, the at-most-one bound on User messages with
text t0, and (when a User-authored message already exists in r) the
exact count of such messages. -/
def JoinStep (r t0 : String) (st st' : ServerState) : Prop :=
  (countMsgs st (isBanner r pmAssignedText) ≤ 1 →
    countMsgs st' (isBanner r pmAssignedText) ≤ 1) ∧
  (countMsgs st (isUserText r t0) ≤ 1 → countMsgs st' (isUserText r t0) ≤ 1) ∧
  (msgExistsType st r SenderType.User = true →
    countMsgs st' (isUserText r t0) = countMsgs st (isUserText r t0) ∧
    msgExistsType st' r SenderType.User = true)

theorem joinStep_refl (r t0 : String) (st : ServerState) : JoinStep r t0 st st :=
  ⟨id, id, fun h => ⟨rfl, h⟩⟩

theorem joinStep_trans {r t0 : String} {s1 s2 s3 : ServerState}
    (a : JoinStep r t0 s1 s2) (b : JoinStep r t0 s2 s3) : JoinStep r t0 s1 s3 := by
  obtain ⟨a1, a2, a3⟩ := a
  obtain ⟨b1, b2, b3⟩ := b
  refine ⟨fun h => b1 (a1 h), fun h => b2 (a2 h), fun h => ?_⟩
  obtain ⟨e1, e2⟩ := a3 h
  obtain ⟨f1, f2⟩ := b3 e2
  exact ⟨by rw [f1, e1], f2⟩

theorem joinStep_of_messages_eq {r t0 : String} {st st' : ServerState}
    (h : st'.messages = st.messages) : JoinStep r t0 st st' :=
  ⟨by rw [countMsgs_congr h]; exact id,
   by rw [countMsgs_congr h]; exact id,
   fun hh => ⟨countMsgs_congr h _, by rw [msgExistsType_congr h]; exact hh⟩⟩

theorem joinStep_append_system {r t0 : String} {st st' : ServerState} (m : Msg)
    (hmsg : st'.messages = st.messages ++ [m])
    (hty : m.senderType = SenderType.System)
    (hguard : isBanner r pmAssignedText m = true →
      countMsgs st (isBanner r pmAssignedText) = 0) :
    JoinStep r t0 st st' := by
  have hBC : countMsgs st' (isBanner r pmAssignedText) =
      countMsgs st (isBanner r pmAssignedText) +
        (if isBanner r pmAssignedText m then 1 else 0) := by
    rw [countMsgs_eq_countL, countMsgs_eq_countL, hmsg, countL_append_single]
  have hGCm : isUserText r t0 m = false := by
    unfold isUserText
    rw [hty]
    simp
  have hGC : countMsgs st' (isUserText r t0) = countMsgs st (isUserText r t0) := by
    rw [countMsgs_eq_countL, countMsgs_eq_countL, hmsg, countL_append_single, hGCm]
    simp
  have hEXm : isUserIn r m = false := by
    unfold isUserIn
    rw [hty]
    simp
  have hEX : msgExistsType st' r SenderType.User = msgExistsType st r SenderType.User := by
    rw [msgExistsType_eq_any_isUserIn, msgExistsType_eq_any_isUserIn, hmsg,
      any_append_single, hEXm]
    simp
  refine ⟨fun h1 => ?_, fun h2 => by rw [hGC]; exact h2,
    fun hx => ⟨hGC, by rw [hEX]; exact hx⟩⟩
  rw [hBC]
  by_cases hm : isBanner r pmAssignedText m = true
  · rw [hguard hm, hm]
    simp
  · simp only [Bool.not_eq_true] at hm
    rw [hm]
    simpa using h1

theorem joinStep_ensure (r t0 : String) (st : ServerState) (r1 tx : String) (b : Bool) :
    JoinStep r t0 st (ensureSystemInline st r1 tx b) := by
  by_cases h : msgExists st r1 SenderType.System tx
  · exact joinStep_of_messages_eq (by rw [ensure_messages]; simp [h])
  · refine joinStep_append_system (mkSysMsg st r1 tx) ?_ rfl ?_
    · rw [ensure_messages]
      simp [h]
    · intro hb
      unfold isBanner mkSysMsg at hb
      simp only [Bool.and_eq_true, beq_iff_eq] at hb
      obtain ⟨⟨hr, -⟩, ht⟩ := hb
      subst hr
      subst ht
      rw [countMsgs_eq_countL]
      apply countL_eq_zero_of_any_false
      rw [← msgExists_eq_any_isBanner]
      simpa using h

theorem joinStep_cae_of_noUser (r t0 : String) (st : ServerState) (doc : UserDoc)
    (tx : String) (h : msgExistsType st r SenderType.User = false) :
    JoinStep r t0 st (createAndEmitMessage st r doc tx) := by
  have hmsg : (createAndEmitMessage st r doc tx).messages =
      st.messages ++
        [{ id := st.nextMsgId, room := r, senderType := SenderType.User,
           sender := doc._id, text := tx, attachments := [], createdAt := st.now }] := rfl
  have hGC0 : countMsgs st (isUserText r t0) = 0 := by
    rw [countMsgs_eq_countL]
    apply countL_le_of_imp _ _ (isUserIn r)
    · intro m hm
      unfold isUserText at hm
      unfold isUserIn
      simp only [Bool.and_eq_true] at hm ⊢
      exact hm.1
    · rw [← msgExistsType_eq_any_isUserIn]
      exact h
  have hGC : countMsgs (createAndEmitMessage st r doc tx) (isUserText r t0) ≤ 1 := by
    rw [countMsgs_eq_countL, hmsg, countL_append_single, ← countMsgs_eq_countL, hGC0]
    split <;> simp
  have hBC : countMsgs (createAndEmitMessage st r doc tx) (isBanner r pmAssignedText) =
      countMsgs st (isBanner r pmAssignedText) := by
    rw [countMsgs_eq_countL, hmsg, countL_append_single, ← countMsgs_eq_countL]
    have : isBanner r pmAssignedText
        { id := st.nextMsgId, room := r, senderType := SenderType.User,
          sender := doc._id, text := tx, attachments := [], createdAt := st.now } = false := by
      unfold isBanner
      simp
    rw [this]
    simp
  refine ⟨fun h1 => by rw [hBC]; exact h1, fun _ => hGC, fun hx => ?_⟩
  rw [h] at hx
  cases hx

theorem joinStep_clientBranch (r t0 : String) (st : ServerState) (role : String) :
    JoinStep r t0 st (clientBranch st r role) := by
  unfold clientBranch
  split
  · split
    · split
      · exact joinStep_ensure r t0 st r pmAssignedText true
      · exact joinStep_refl r t0 st
    · exact joinStep_refl r t0 st
  · exact joinStep_refl r t0 st

theorem joinStep_pmAssign (r t0 : String) (st : ServerState) (u : Option UserRec)
    (uid : Option String) : JoinStep r t0 st (pmAssign st r u uid) := by
  simp only [pmAssign]
  refine joinStep_trans (joinStep_ensure r t0 st r pmAssignedText true) ?_
  split
  · exact joinStep_refl r t0 _
  · rename_i hex
    simp only [Bool.not_eq_true] at hex
    exact joinStep_cae_of_noUser r t0 _ _ _ hex

theorem joinStep_pmGuard (r t0 : String) (st : ServerState) (u : Option UserRec)
    (uid : Option String) : JoinStep r t0 st (pmGuard st r u uid) := by
  unfold pmGuard
  split
  · exact joinStep_refl r t0 st
  · refine joinStep_trans ?_ (joinStep_pmAssign r t0 _ u uid)
    exact joinStep_of_messages_eq rfl

theorem joinStep_pmBranch (r t0 : String) (st : ServerState) (u : Option UserRec)
    (uid : Option String) (role : String) :
    JoinStep r t0 st (pmBranch st r u uid role) := by
  unfold pmBranch
  split
  · exact joinStep_trans (joinStep_ensure r t0 st r pmOnlineText true)
      (joinStep_pmGuard r t0 _ u uid)
  · exact joinStep_refl r t0 st

theorem joinStep_engineerBranch (r t0 : String) (st : ServerState)
    (uid : Option String) (role : String) :
    JoinStep r t0 st (engineerBranch st r uid role) := by
  simp only [engineerBranch]
  split
  · split
    · exact joinStep_ensure r t0 st r engineerText true
    · refine joinStep_trans ?_ (joinStep_ensure r t0 _ r engineerText true)
      exact joinStep_of_messages_eq rfl
  · exact joinStep_refl r t0 st

theorem joinStep_handleJoin (r t0 : String) (st : ServerState) (sid : String)
    (doc : Option UserRec) (uid : Option String) :
    JoinStep r t0 st (handleJoin st sid doc r uid) := by
  unfold handleJoin
  cases hfr : findRoom st r with
  | none => exact joinStep_of_messages_eq rfl
  | some room =>
    cases uid with
    | none =>
      exact joinStep_trans (joinStep_of_messages_eq (by simp))
        (joinStep_trans (joinStep_clientBranch r t0 _ _)
          (joinStep_trans (joinStep_pmBranch r t0 _ _ _ _)
            (joinStep_engineerBranch r t0 _ _ _)))
    | some u0 =>
      exact joinStep_trans (joinStep_of_messages_eq (by simp))
        (joinStep_trans (joinStep_clientBranch r t0 _ _)
          (joinStep_trans (joinStep_pmBranch r t0 _ _ _ _)
            (joinStep_engineerBranch r t0 _ _ _)))

/-- C5: two sequential joins (by the same manager-role connection or
any other) into room roomId keep the message store at no more than one
PM-assigned banner and no more than one User message with any fixed
text t0 (in particular the synthesized greeting); and when a
User-authored message already existed at the time of the first join, no
greeting is synthesized by either join. -/
theorem pm_double_join_idempotent (st : ServerState) (sid1 sid2 : String)
    (doc : Option UserRec) (roomId : String) (uid : Option String) (t0 : String)
    (hb : countMsgs st (isBanner roomId pmAssignedText) ≤ 1)
    (hg : countMsgs st (isUserText roomId t0) ≤ 1) :
    countMsgs (handleJoin (handleJoin st sid1 doc roomId uid) sid2 doc roomId uid)
      (isBanner roomId pmAssignedText) ≤ 1 ∧
    countMsgs (handleJoin (handleJoin st sid1 doc roomId uid) sid2 doc roomId uid)
      (isUserText roomId t0) ≤ 1 ∧
    (msgExistsType st roomId SenderType.User = true →
      countMsgs (handleJoin (handleJoin st sid1 doc roomId uid) sid2 doc roomId uid)
        (isUserText roomId t0) = countMsgs st (isUserText roomId t0)) := by
  have J := joinStep_trans (joinStep_handleJoin roomId t0 st sid1 doc uid)
    (joinStep_handleJoin roomId t0 _ sid2 doc uid)
  exact ⟨J.1 hb, J.2.1 hg, fun hex => (J.2.2 hex).1⟩

/-- State with one room and a PM user, used to witness the idempotent
greeting claim. -/
def stW5 : ServerState :=
  { messages := [], nextMsgId := 0,
    users := [{ uid := "u1", firstName := some "Ann", lastName := none,
                email := none, role := "PM", online := false, lastActive := 0,
                tokenVersion := 1 }],
    rooms := [{ rid := "r1", typing := [] }], projectRequests := [],
    presence := [], pmAnnounced := [], engineerFirstJoin := [], subs := [],
    emitted := [], ensureCalls := [], now := 3 }

/-- Witness for C5: after a PM joins the same room twice, at most one
PM-assigned banner is stored. -/
theorem pm_double_join_idempotent_witness :
    countMsgs (handleJoin (handleJoin stW5 "s1" none "r1" (some "u1")) "s2" none
      "r1" (some "u1")) (isBanner "r1" pmAssignedText) ≤ 1 :=
  (pm_double_join_idempotent stW5 "s1" "s2" none "r1" (some "u1")
    (pmGreeting "Ann") (by decide) (by decide)).1

/-! ### Engineer re-announcement (C6) -/

theorem lastOfConcat {α : Type} (l : List α) (a : α) : (l ++ [a]).getLast? = some a := by
  simp

theorem engineerBranch_calls (st : ServerState) (roomId : String) (uid : Option String)
    (role : String) (h : containsCI role "engineer" = true) :
    (engineerBranch st roomId uid role).ensureCalls =
      st.ensureCalls ++ [(roomId, engineerText)] := by
  simp only [engineerBranch, h, if_true]
  split <;> rw [ensure_ensureCalls]

/-- C6: on every join by a connection whose resolved role matches
"engineer" into an existing room, the engineer banner ensure is invoked
(it is the last ensure invocation of the handler), regardless of
whether the process-local first-join guard for the (roomId, userId)
pair has already fired. -/
theorem engineer_banner_on_every_join (st : ServerState) (sid : String)
    (doc : Option UserRec) (roomId : String) (uid : Option String) (room : Room)
    (hroom : findRoom st roomId = some room)
    (heng : containsCI
      (jsOrOpt ((resolveU st.users doc uid).map (fun x => x.role)) "User")
      "engineer" = true) :
    ((handleJoin st sid doc roomId uid).ensureCalls).getLast? =
      some (roomId, engineerText) := by
  unfold handleJoin
  rw [hroom]
  cases uid with
  | none =>
    simp only [subJoin_users, emit_users]
    rw [engineerBranch_calls _ _ _ _ heng, lastOfConcat]
  | some u0 =>
    simp only [subJoin_users, emit_users]
    rw [engineerBranch_calls _ _ _ _ heng, lastOfConcat]

/-- State whose first-join guard has already fired for (r1, u1), used
to witness that the engineer banner is still ensured on a further
join. -/
def stW6 : ServerState :=
  { messages := [], nextMsgId := 0,
    users := [{ uid := "u1", firstName := none, lastName := none, email := none,
                role := "Engineer", online := true, lastActive := 0,
                tokenVersion := 1 }],
    rooms := [{ rid := "r1", typing := [] }], projectRequests := [],
    presence := [], pmAnnounced := [], engineerFirstJoin := ["r1:u1"], subs := [],
    emitted := [], ensureCalls := [], now := 4 }

/-- Witness for C6 at a state where the first-join guard already
fired. -/
theorem engineer_banner_on_every_join_witness :
    ((handleJoin stW6 "s1" none "r1" (some "u1")).ensureCalls).getLast? =
      some ("r1", engineerText) :=
  engineer_banner_on_every_join stW6 "s1" none "r1" (some "u1")
    { rid := "r1", typing := [] } (by decide) (by decide)

end Loopp
